import Mathlib

/-!
Shallow embedding of the `libcw_debug.py` event-table script from the unixcw
package (file `src/libcw/libcw_debug.py`).

The script reads lines of a debug log, keeps the ones matching the regular
expression `^libcwevent:\t([0-9]+)\t(.+)`, classifies the captured token by
prefix into a Tone event or a TQ event, builds a dictionary `input_events`
from timestamps to event names (also writing a synthesized predecessor entry
at `time - 1`), and finally prints a tab-separated table, one row per
dictionary key in ascending order, forward-filling each active column from a
per-category cursor.

Modelling choices:
* a line of input is a `String` (without its trailing newline, which the
  regular expression's `.` cannot cross anyway);
* the dictionary is an association list with the same replace-or-append
  semantics as a Python dict;
* standard output is a list of printed lines, standard error a list of
  diagnostic messages;
* a lookup of a missing key in `event_values` during emission returns
  `none`, propagated to the whole output: `none` models the uncaught Python
  `KeyError` that terminates the run.
-/

/-- The literal pattern `libcwevent:` followed by a tab, which must start an
event line. -/
def eventPat : List Char := "libcwevent:\t".toList

/-- The literal pattern classifying a token as a Tone event. -/
def tonePat : List Char := "CW_DEBUG_EVENT_TONE".toList

/-- The literal pattern classifying a token as a TQ event. -/
def tqPat : List Char := "CW_DEBUG_EVENT_TQ".toList

/-- The Tone Low event name, initial value of the tone cursor. -/
def toneLowName : List Char := "CW_DEBUG_EVENT_TONE_LOW".toList

/-- The TQ Still Empty event name, initial value of the TQ cursor during
ingestion. -/
def tqStillEmptyName : List Char := "CW_DEBUG_EVENT_TQ_STILL_EMPTY".toList

/-- The misspelled name the script assigns to the TQ cursor when it resets
the cursors for printing (`CW_DEBUG_EVENT_TQ_STILL_NEMPTY`, sic). -/
def tqStillNemptyName : List Char := "CW_DEBUG_EVENT_TQ_STILL_NEMPTY".toList

/-- Mirror of the script's `event_values` dictionary, mapping human-readable
event names to plot-friendly number strings.  A name that is not one of the
six keys yields `none`, the situation in which the script raises `KeyError`. -/
def event_values (s : List Char) : Option String :=
  if s = "CW_DEBUG_EVENT_TONE_LOW".toList then some "0"
  else if s = "CW_DEBUG_EVENT_TONE_MID".toList then some "1"
  else if s = "CW_DEBUG_EVENT_TONE_HIGH".toList then some "2"
  else if s = "CW_DEBUG_EVENT_TQ_JUST_EMPTIED".toList then some "0"
  else if s = "CW_DEBUG_EVENT_TQ_NONEMPTY".toList then some "1"
  else if s = "CW_DEBUG_EVENT_TQ_STILL_EMPTY".toList then some "2"
  else none

/-- Test that the first character list starts the second one.  This models
`re.match(pattern, s)` for the literal patterns `tonePat` and `tqPat`, which
the script uses as anchored literal tests. -/
def isPre : List Char → List Char → Bool
  | [], _ => true
  | _ :: _, [] => false
  | p :: ps, c :: cs => p == c && isPre ps cs

/-- Strip a literal leading pattern from a character list, or fail. -/
def afterPre : List Char → List Char → Option (List Char)
  | [], s => some s
  | _ :: _, [] => none
  | p :: ps, c :: cs => if p = c then afterPre ps cs else none

/-- Value of a non-empty digit string, as `int()` computes it. -/
def digitsToNat (l : List Char) : Nat :=
  l.foldl (fun n c => 10 * n + (c.toNat - 48)) 0

/-- Model of `re.match("^libcwevent:\t([0-9]+)\t(.+)", line)`: the line must
start with `libcwevent:`, a tab, one or more digits, a tab and at least one
further character.  On success it returns the timestamp (group 1, parsed by
`int`) and the token (group 2, the whole rest of the line). -/
def parseLine (l : List Char) : Option (Nat × List Char) :=
  match afterPre eventPat l with
  | none => none
  | some r =>
    let ds := r.takeWhile Char.isDigit
    match ds, r.dropWhile Char.isDigit with
    | [], _ => none
    | _ :: _, '\t' :: tok => if tok = [] then none else some (digitsToNat ds, tok)
    | _ :: _, _ => none

/-- Membership test `k in d.keys()` for the association-list dictionary. -/
def memKey (d : List (Int × List Char)) (k : Int) : Bool :=
  d.any (fun kv => kv.1 == k)

/-- Lookup `d[k]` in the association-list dictionary. -/
def dictGet : List (Int × List Char) → Int → Option (List Char)
  | [], _ => none
  | kv :: rest, k => if kv.1 = k then some kv.2 else dictGet rest k

/-- Assignment `d[k] = v` with Python-dict semantics: replace the value at an
existing key in place, otherwise append the new binding at the end. -/
def dictInsert (k : Int) (v : List Char) : List (Int × List Char) → List (Int × List Char)
  | [] => [(k, v)]
  | kv :: rest => if kv.1 = k then (k, v) :: rest else kv :: dictInsert k v rest

/-- The script's mutable module state: the `input_events` dictionary, the two
category-presence flags and the two per-category previous-event cursors. -/
structure St where
  input_events : List (Int × List Char)
  tone_event_present : Bool
  tone_event_previous : List Char
  tq_event_present : Bool
  tq_event_previous : List Char
deriving DecidableEq, Repr

/-- The state just before the reading loop starts. -/
def initState : St :=
  { input_events := []
    tone_event_present := false
    tone_event_previous := toneLowName
    tq_event_present := false
    tq_event_previous := tqStillEmptyName }

/-- One iteration of the reading loop on one input line.  Returns the updated
state and the diagnostic messages the iteration printed to standard error.
A line the regular expression rejects is skipped (`continue`); an
unrecognized token prints a diagnostic and nothing more, faithfully to the
script, in which the bare `exit` expression on the following line has no
effect. -/
def step (st : St) (line : String) : St × List String :=
  match parseLine line.toList with
  | none => (st, [])
  | some (time, event) =>
    if isPre tonePat event then
      ({ st with
          input_events :=
            dictInsert (time : Int) event
              (dictInsert ((time : Int) - 1) st.tone_event_previous st.input_events)
          tone_event_present := true
          tone_event_previous := event },
        (if memKey st.input_events (time : Int) then ["Tone collision 1"] else []) ++
          (if memKey st.input_events ((time : Int) - 1) then ["Tone collision 2"] else []))
    else if isPre tqPat event then
      ({ st with
          input_events :=
            dictInsert (time : Int) event
              (dictInsert ((time : Int) - 1) st.tq_event_previous st.input_events)
          tq_event_present := true
          tq_event_previous := event },
        (if memKey st.input_events (time : Int) then ["TQ collision 1"] else []) ++
          (if memKey st.input_events ((time : Int) - 1) then ["TQ collision 2"] else []))
    else
      (st, ["Unknown type of debug event: " ++ String.mk event])

/-- The whole reading loop from a given state: final state and concatenated
standard-error output. -/
def ingestAux (st : St) : List String → St × List String
  | [] => (st, [])
  | l :: ls =>
    let p := step st l
    let q := ingestAux p.1 ls
    (q.1, p.2 ++ q.2)

/-- The whole reading loop from the initial state. -/
def ingest (input : List String) : St × List String :=
  ingestAux initState input

/-- `sorted(input_events.keys())`: the dictionary keys in ascending order. -/
def sortedKeys (d : List (Int × List Char)) : List Int :=
  List.insertionSort (· ≤ ·) (d.map Prod.fst)

/-- One column cell of one output row.  `cat` is the category's literal name
pattern, `present` its presence flag, `entry` the table entry at the current
timestamp and `cursor` the category's forward-fill cursor.  Returns the text
appended to the row and the updated cursor, or `none` when the required
`event_values` lookup would raise `KeyError`. -/
def emitCell (cat : List Char) (present : Bool) (entry cursor : List Char) :
    Option (String × List Char) :=
  if present then
    if isPre cat entry then
      match event_values entry with
      | none => none
      | some v => some ("\t" ++ v, entry)
    else
      match event_values cursor with
      | none => none
      | some v => some ("\t" ++ v, cursor)
  else
    some ("", cursor)

/-- The output loop over a list of timestamps, carrying the two forward-fill
cursors.  Produces the data rows, or `none` at the first `KeyError`. -/
def emitRows (st : St) : List Int → List Char → List Char → Option (List String)
  | [], _, _ => some []
  | t :: ts, tone_prev, tq_prev =>
    match dictGet st.input_events t with
    | none => none
    | some ev =>
      match emitCell tonePat st.tone_event_present ev tone_prev with
      | none => none
      | some (c1, tone_prev2) =>
        match emitCell tqPat st.tq_event_present ev tq_prev with
        | none => none
        | some (c2, tq_prev2) =>
          match emitRows st ts tone_prev2 tq_prev2 with
          | none => none
          | some rows => some ((toString t ++ c1 ++ c2) :: rows)

/-- The header line: `Time`, then `Tone` and `TQ` for the categories that
occurred in the input. -/
def header (st : St) : String :=
  "Time" ++ (if st.tone_event_present then "\tTone" else "")
    ++ (if st.tq_event_present then "\tTQ" else "")

/-- The whole printing phase on a final loop state.  Faithfully to the
script, the cursors are re-initialized for printing with `Tone Low` and with
the misspelled name `CW_DEBUG_EVENT_TQ_STILL_NEMPTY`, which is not a key of
`event_values`.  Result: the printed lines (header first), or `none` when a
lookup raises `KeyError`. -/
def output (st : St) : Option (List String) :=
  match emitRows st (sortedKeys st.input_events) toneLowName tqStillNemptyName with
  | none => none
  | some rows => some (header st :: rows)

/-- The whole program on a list of input lines: standard output as a list of
printed lines, or `none` when the run dies with `KeyError`. -/
def run (input : List String) : Option (List String) :=
  output (ingest input).1

/-! ### Helper lemmas about the dictionary and the loops -/

/-- A line the regular expression rejects leaves the whole state unchanged
and prints nothing. -/
theorem step_of_no_match (st : St) (line : String) (h : parseLine line.toList = none) :
    step st line = (st, []) := by
  have h' : parseLine line.data = none := h
  simp [step, h']

/-- Equation for one loop iteration on a line carrying a Tone token. -/
theorem step_of_tone (st : St) (line : String) (t : Nat) (tok : List Char)
    (hp : parseLine line.toList = some (t, tok)) (h1 : isPre tonePat tok = true) :
    step st line =
      ({ st with
          input_events :=
            dictInsert (t : Int) tok
              (dictInsert ((t : Int) - 1) st.tone_event_previous st.input_events)
          tone_event_present := true
          tone_event_previous := tok },
        (if memKey st.input_events (t : Int) then ["Tone collision 1"] else []) ++
          (if memKey st.input_events ((t : Int) - 1) then ["Tone collision 2"] else [])) := by
  have hp' : parseLine line.data = some (t, tok) := hp
  simp [step, hp', h1]

/-- Equation for one loop iteration on a line carrying a TQ token. -/
theorem step_of_tq (st : St) (line : String) (t : Nat) (tok : List Char)
    (hp : parseLine line.toList = some (t, tok)) (h1 : isPre tonePat tok = false)
    (h2 : isPre tqPat tok = true) :
    step st line =
      ({ st with
          input_events :=
            dictInsert (t : Int) tok
              (dictInsert ((t : Int) - 1) st.tq_event_previous st.input_events)
          tq_event_present := true
          tq_event_previous := tok },
        (if memKey st.input_events (t : Int) then ["TQ collision 1"] else []) ++
          (if memKey st.input_events ((t : Int) - 1) then ["TQ collision 2"] else [])) := by
  have hp' : parseLine line.data = some (t, tok) := hp
  simp [step, hp', h1, h2]

/-- Equation for one loop iteration on a line carrying an unrecognized
token. -/
theorem step_of_unknown (st : St) (line : String) (t : Nat) (tok : List Char)
    (hp : parseLine line.toList = some (t, tok)) (h1 : isPre tonePat tok = false)
    (h2 : isPre tqPat tok = false) :
    step st line = (st, ["Unknown type of debug event: " ++ String.mk tok]) := by
  have hp' : parseLine line.data = some (t, tok) := hp
  simp [step, hp', h1, h2]

/-- When every line is rejected, the reading loop is the identity. -/
theorem ingestAux_of_no_match (st : St) (ls : List String)
    (h : ∀ l ∈ ls, parseLine l.toList = none) : ingestAux st ls = (st, []) := by
  induction ls generalizing st with
  | nil => rfl
  | cons l ls ih =>
    simp [ingestAux, step_of_no_match st l (h l (by simp)),
      ih st (fun x hx => h x (by simp [hx]))]

/-- Looking up the key just inserted yields the value just inserted. -/
theorem dictGet_dictInsert_self (k : Int) (v : List Char) (d : List (Int × List Char)) :
    dictGet (dictInsert k v d) k = some v := by
  induction d with
  | nil => simp [dictInsert, dictGet]
  | cons kv rest ih =>
    by_cases h : kv.1 = k
    · simp [dictInsert, dictGet, h]
    · simp [dictInsert, dictGet, h, ih]

/-- `memKey` agrees with membership in the key list. -/
theorem memKey_iff_mem (d : List (Int × List Char)) (k : Int) :
    memKey d k = true ↔ k ∈ d.map Prod.fst := by
  simp only [memKey, List.any_eq_true, beq_iff_eq, List.mem_map]

/-- The key list after an insertion consists of the inserted key and the old
keys. -/
theorem keys_dictInsert (k k' : Int) (v : List Char) (d : List (Int × List Char)) :
    k' ∈ (dictInsert k v d).map Prod.fst ↔ k' = k ∨ k' ∈ d.map Prod.fst := by
  induction d with
  | nil => simp [dictInsert]
  | cons kv rest ih =>
    by_cases hk : kv.1 = k
    · simp only [dictInsert, hk, if_true, List.map_cons, List.mem_cons, hk]
      tauto
    · simp only [dictInsert, hk, if_false, List.map_cons, List.mem_cons, ih]
      tauto

/-- Key membership after an insertion. -/
theorem memKey_dictInsert_iff (k k' : Int) (v : List Char) (d : List (Int × List Char)) :
    memKey (dictInsert k v d) k' = true ↔ k' = k ∨ memKey d k' = true := by
  rw [memKey_iff_mem, memKey_iff_mem, keys_dictInsert]

/-- Every binding of the dictionary after an insertion is the new binding or
an old one. -/
theorem mem_dictInsert (kv : Int × List Char) (k : Int) (v : List Char)
    (d : List (Int × List Char)) (h : kv ∈ dictInsert k v d) : kv = (k, v) ∨ kv ∈ d := by
  induction d with
  | nil => simpa [dictInsert] using h
  | cons kv0 rest ih =>
    by_cases hk : kv0.1 = k
    · simp only [dictInsert, hk, if_true] at h
      rcases List.mem_cons.1 h with rfl | h
      · exact Or.inl rfl
      · exact Or.inr (List.mem_cons.2 (Or.inr h))
    · simp only [dictInsert, hk, if_false] at h
      rcases List.mem_cons.1 h with rfl | h
      · exact Or.inr (List.mem_cons.2 (Or.inl rfl))
      · rcases ih h with h' | h'
        · exact Or.inl h'
        · exact Or.inr (List.mem_cons.2 (Or.inr h'))

/-- One loop iteration never removes a key from the dictionary. -/
theorem step_memKey (st : St) (l : String) (k : Int) (h : memKey st.input_events k = true) :
    memKey (step st l).1.input_events k = true := by
  cases hp : parseLine l.toList with
  | none => rw [step_of_no_match st l hp]; exact h
  | some p =>
    obtain ⟨t, tok⟩ := p
    cases h1 : isPre tonePat tok with
    | true =>
      rw [step_of_tone st l t tok hp h1]
      exact (memKey_dictInsert_iff _ _ _ _).2
        (Or.inr ((memKey_dictInsert_iff _ _ _ _).2 (Or.inr h)))
    | false =>
      cases h2 : isPre tqPat tok with
      | true =>
        rw [step_of_tq st l t tok hp h1 h2]
        exact (memKey_dictInsert_iff _ _ _ _).2
          (Or.inr ((memKey_dictInsert_iff _ _ _ _).2 (Or.inr h)))
      | false =>
        rw [step_of_unknown st l t tok hp h1 h2]
        exact h

/-- The whole reading loop never removes a key from the dictionary. -/
theorem ingestAux_memKey (st : St) (ls : List String) (k : Int)
    (h : memKey st.input_events k = true) :
    memKey (ingestAux st ls).1.input_events k = true := by
  induction ls generalizing st with
  | nil => simpa [ingestAux] using h
  | cons l ls ih => exact ih _ (step_memKey st l k h)

/-- Splitting the reading loop at a point of the input gives the same final
state. -/
theorem ingestAux_append (st : St) (a b : List String) :
    (ingestAux st (a ++ b)).1 = (ingestAux (ingestAux st a).1 b).1 := by
  induction a generalizing st with
  | nil => simp [ingestAux]
  | cons l ls ih => simp [ingestAux, ih]

/-- A recognized event line whose timestamp is `t` makes `t - 1` a key of the
dictionary (the synthesized predecessor entry). -/
theorem step_writes_pred (st : St) (l : String) (t : Nat) (tok : List Char)
    (hp : parseLine l.toList = some (t, tok))
    (hc : isPre tonePat tok = true ∨ isPre tqPat tok = true) :
    memKey (step st l).1.input_events ((t : Int) - 1) = true := by
  cases h1 : isPre tonePat tok with
  | true =>
    rw [step_of_tone st l t tok hp h1]
    exact (memKey_dictInsert_iff _ _ _ _).2
      (Or.inr ((memKey_dictInsert_iff _ _ _ _).2 (Or.inl rfl)))
  | false =>
    have h2 : isPre tqPat tok = true := by
      rcases hc with hc | hc
      · rw [h1] at hc; exact absurd hc (by simp)
      · exact hc
    rw [step_of_tq st l t tok hp h1 h2]
    exact (memKey_dictInsert_iff _ _ _ _).2
      (Or.inr ((memKey_dictInsert_iff _ _ _ _).2 (Or.inl rfl)))

/-- One loop iteration only adds keys that are at least `-1`: a real
timestamp is a natural number and a synthesized predecessor is one less. -/
theorem step_keys_lb (st : St) (l : String) (h : ∀ kv ∈ st.input_events, (-1 : Int) ≤ kv.1) :
    ∀ kv ∈ (step st l).1.input_events, (-1 : Int) ≤ kv.1 := by
  cases hp : parseLine l.toList with
  | none => rw [step_of_no_match st l hp]; exact h
  | some p =>
    obtain ⟨t, tok⟩ := p
    have ht : (0 : Int) ≤ (t : Int) := Int.natCast_nonneg t
    cases h1 : isPre tonePat tok with
    | true =>
      rw [step_of_tone st l t tok hp h1]
      intro kv hkv
      rcases mem_dictInsert _ _ _ _ hkv with rfl | hkv
      · omega
      · rcases mem_dictInsert _ _ _ _ hkv with rfl | hkv
        · omega
        · exact h kv hkv
    | false =>
      cases h2 : isPre tqPat tok with
      | true =>
        rw [step_of_tq st l t tok hp h1 h2]
        intro kv hkv
        rcases mem_dictInsert _ _ _ _ hkv with rfl | hkv
        · omega
        · rcases mem_dictInsert _ _ _ _ hkv with rfl | hkv
          · omega
          · exact h kv hkv
      | false =>
        rw [step_of_unknown st l t tok hp h1 h2]
        exact h

/-- The whole reading loop only creates keys that are at least `-1`. -/
theorem ingestAux_keys_lb (st : St) (ls : List String)
    (h : ∀ kv ∈ st.input_events, (-1 : Int) ≤ kv.1) :
    ∀ kv ∈ (ingestAux st ls).1.input_events, (-1 : Int) ≤ kv.1 := by
  induction ls generalizing st with
  | nil => simpa [ingestAux] using h
  | cons l ls ih => exact ih _ (step_keys_lb st l h)

/-- In a sorted list of integers that are all at least `-1`, an occurrence of
`-1` makes it the first element. -/
theorem head_of_sorted_lb (l : List Int) (hs : List.Sorted (· ≤ ·) l)
    (hm : (-1 : Int) ∈ l) (hge : ∀ x ∈ l, (-1 : Int) ≤ x) : l.head? = some (-1) := by
  cases l with
  | nil => simp at hm
  | cons x xs =>
    have hx : x = -1 := by
      rcases List.mem_cons.1 hm with rfl | h
      · rfl
      · have h1 : x ≤ -1 := (List.sorted_cons.1 hs).1 _ h
        have h2 : (-1 : Int) ≤ x := hge x (List.mem_cons_self x xs)
        omega
    simp [hx]

/-- When `-1` is a key and every key is at least `-1`, the first timestamp
the output loop visits is `-1`. -/
theorem sortedKeys_head (d : List (Int × List Char)) (hm : memKey d (-1) = true)
    (hge : ∀ kv ∈ d, (-1 : Int) ≤ kv.1) : (sortedKeys d).head? = some (-1) := by
  have hperm := List.perm_insertionSort (α := Int) (· ≤ ·) (d.map Prod.fst)
  refine head_of_sorted_lb _ (List.sorted_insertionSort (· ≤ ·) (d.map Prod.fst)) ?_ ?_
  · exact hperm.mem_iff.2 ((memKey_iff_mem d (-1)).1 hm)
  · intro x hx
    rcases List.mem_map.1 (hperm.mem_iff.1 hx) with ⟨kv, hkv, rfl⟩
    exact hge kv hkv

/-! ### Claim theorems -/

/-- Claim C1 counterexample: the two spec lines written without the colon
after `libcwevent` do not match the script's regular expression, so the
table stays empty — in particular it contains none of the entries at 9, 10,
19 and 20 — and the output has no data rows at all. -/
theorem noncolon_spec_lines_are_ignored :
    (ingest ["libcwevent\t10\tCW_DEBUG_EVENT_TONE_MID",
      "libcwevent\t20\tCW_DEBUG_EVENT_TONE_HIGH"]).1.input_events = [] ∧
    run ["libcwevent\t10\tCW_DEBUG_EVENT_TONE_MID",
      "libcwevent\t20\tCW_DEBUG_EVENT_TONE_HIGH"] = some ["Time"] :=
  ⟨rfl, rfl⟩

/-- Claim C1 amended: with the colon the pattern requires, the two lines
yield exactly the table entries 9 to Tone Low, 10 to Tone Mid, 19 to Tone
Mid (the synthesized predecessor) and 20 to Tone High, and the data rows
ascend 9, 10, 19, 20 with codes 0, 1, 1, 2. -/
theorem colon_spec_lines_build_expected_table :
    (ingest ["libcwevent:\t10\tCW_DEBUG_EVENT_TONE_MID",
      "libcwevent:\t20\tCW_DEBUG_EVENT_TONE_HIGH"]).1.input_events =
      [((9 : Int), "CW_DEBUG_EVENT_TONE_LOW".toList),
        ((10 : Int), "CW_DEBUG_EVENT_TONE_MID".toList),
        ((19 : Int), "CW_DEBUG_EVENT_TONE_MID".toList),
        ((20 : Int), "CW_DEBUG_EVENT_TONE_HIGH".toList)] ∧
    run ["libcwevent:\t10\tCW_DEBUG_EVENT_TONE_MID",
      "libcwevent:\t20\tCW_DEBUG_EVENT_TONE_HIGH"] =
      some ["Time\tTone", "9\t0", "10\t1", "19\t1", "20\t2"] :=
  ⟨rfl, rfl⟩

/-- Claim C2 evaluation: with a Tone event at 5 and the first TQ event at 8,
the run dies with `KeyError` instead of forward-filling the TQ column with
the default code 2, because the emission pass resets the TQ cursor to the
misspelled name `CW_DEBUG_EVENT_TQ_STILL_NEMPTY`, which is not a key of
`event_values`. -/
theorem forward_fill_dies_on_misspelled_default :
    event_values tqStillNemptyName = none ∧
    run ["libcwevent:\t5\tCW_DEBUG_EVENT_TONE_MID",
      "libcwevent:\t8\tCW_DEBUG_EVENT_TQ_NONEMPTY"] = none :=
  ⟨rfl, rfl⟩

/-- Claim C3: a line whose timestamp parses but whose token matches neither
the Tone pattern nor the TQ pattern produces exactly one diagnostic on the
error stream, changes nothing in the state, and the loop goes on with the
remaining lines exactly as if the offending line were absent. -/
theorem unknown_token_diag_and_continue (st : St) (line : String) (t : Nat)
    (tok : List Char) (rest : List String)
    (hp : parseLine line.toList = some (t, tok))
    (h1 : isPre tonePat tok = false) (h2 : isPre tqPat tok = false) :
    step st line = (st, ["Unknown type of debug event: " ++ String.mk tok]) ∧
    ingestAux st (line :: rest) =
      ((ingestAux st rest).1,
        ("Unknown type of debug event: " ++ String.mk tok) :: (ingestAux st rest).2) := by
  have hs := step_of_unknown st line t tok hp h1 h2
  refine ⟨hs, ?_⟩
  simp [ingestAux, hs]

/-- Witness for the unknown-token claim at the concrete line
`libcwevent:` tab `3` tab `CW_DEBUG_EVENT_FOO` from the empty state. -/
theorem unknown_token_diag_and_continue_witness :
    step initState "libcwevent:\t3\tCW_DEBUG_EVENT_FOO" =
      (initState, ["Unknown type of debug event: " ++ String.mk ("CW_DEBUG_EVENT_FOO".toList)]) ∧
    ingestAux initState ["libcwevent:\t3\tCW_DEBUG_EVENT_FOO"] =
      ((ingestAux initState []).1,
        ("Unknown type of debug event: " ++ String.mk ("CW_DEBUG_EVENT_FOO".toList)) ::
          (ingestAux initState []).2) :=
  unknown_token_diag_and_continue initState "libcwevent:\t3\tCW_DEBUG_EVENT_FOO" 3
    ("CW_DEBUG_EVENT_FOO".toList) [] rfl rfl rfl

/-- Claim C4: when a Tone event arrives at a timestamp `t` that an earlier
Tone event of the input already occupies, the iteration ingesting the later
event prints `Tone collision 1` on the error stream and afterwards the table
maps `t` to the later event's token. -/
theorem tone_collision_second_wins (pre mid : List String) (l1 l2 : String) (t : Nat)
    (tok1 tok2 : List Char)
    (hp1 : parseLine l1.toList = some (t, tok1)) (h1 : isPre tonePat tok1 = true)
    (hp2 : parseLine l2.toList = some (t, tok2)) (h2 : isPre tonePat tok2 = true) :
    "Tone collision 1" ∈ (step (ingestAux initState (pre ++ l1 :: mid)).1 l2).2 ∧
    dictGet (step (ingestAux initState (pre ++ l1 :: mid)).1 l2).1.input_events (t : Int) =
      some tok2 := by
  have hmem : memKey (ingestAux initState (pre ++ l1 :: mid)).1.input_events (t : Int) = true := by
    have e1 : pre ++ l1 :: mid = (pre ++ [l1]) ++ mid := by simp
    rw [e1, ingestAux_append, ingestAux_append]
    apply ingestAux_memKey
    rw [show (ingestAux (ingestAux initState pre).1 [l1]).1 =
      (step (ingestAux initState pre).1 l1).1 from rfl]
    rw [step_of_tone _ l1 t tok1 hp1 h1]
    exact (memKey_dictInsert_iff _ _ _ _).2 (Or.inl rfl)
  rw [step_of_tone _ l2 t tok2 hp2 h2]
  constructor
  · simp [hmem]
  · exact dictGet_dictInsert_self _ _ _

/-- Witness for the same-timestamp Tone collision claim: two Tone events
both at time 7; ingesting the second prints the collision diagnostic and
leaves `Tone High` at key 7. -/
theorem tone_collision_second_wins_witness :
    "Tone collision 1" ∈
      (step (ingestAux initState ([] ++ "libcwevent:\t7\tCW_DEBUG_EVENT_TONE_MID" :: [])).1
        "libcwevent:\t7\tCW_DEBUG_EVENT_TONE_HIGH").2 ∧
    dictGet (step (ingestAux initState
        ([] ++ "libcwevent:\t7\tCW_DEBUG_EVENT_TONE_MID" :: [])).1
        "libcwevent:\t7\tCW_DEBUG_EVENT_TONE_HIGH").1.input_events ((7 : Nat) : Int) =
      some ("CW_DEBUG_EVENT_TONE_HIGH".toList) :=
  tone_collision_second_wins [] [] "libcwevent:\t7\tCW_DEBUG_EVENT_TONE_MID"
    "libcwevent:\t7\tCW_DEBUG_EVENT_TONE_HIGH" 7 ("CW_DEBUG_EVENT_TONE_MID".toList)
    ("CW_DEBUG_EVENT_TONE_HIGH".toList) rfl rfl rfl rfl

/-- Claim C5 evaluation: with a Tone event at 3 and a TQ event at 9 both
presence flags are set and the header declares all three columns, but the
data rows die with `KeyError` on the misspelled TQ default while
forward-filling the very first row, so the three-column table is never
produced. -/
theorem both_categories_emission_dies :
    header (ingest ["libcwevent:\t3\tCW_DEBUG_EVENT_TONE_HIGH",
      "libcwevent:\t9\tCW_DEBUG_EVENT_TQ_JUST_EMPTIED"]).1 = "Time\tTone\tTQ" ∧
    run ["libcwevent:\t3\tCW_DEBUG_EVENT_TONE_HIGH",
      "libcwevent:\t9\tCW_DEBUG_EVENT_TQ_JUST_EMPTIED"] = none :=
  ⟨rfl, rfl⟩

/-- Claim C6: the transform is deterministic — runs on equal inputs produce
equal standard output. -/
theorem run_deterministic (i1 i2 : List String) (h : i1 = i2) : run i1 = run i2 := by
  rw [h]

/-- Witness for determinism at a concrete input. -/
theorem run_deterministic_witness :
    run ["libcwevent:\t1\tCW_DEBUG_EVENT_TONE_LOW"] =
      run ["libcwevent:\t1\tCW_DEBUG_EVENT_TONE_LOW"] :=
  run_deterministic ["libcwevent:\t1\tCW_DEBUG_EVENT_TONE_LOW"]
    ["libcwevent:\t1\tCW_DEBUG_EVENT_TONE_LOW"] rfl

/-- Claim C7: a line the event pattern rejects changes nothing at all: the
table, both cursors and both presence flags are untouched and no diagnostic
is printed.  Standard output is produced only by the later emission phase. -/
theorem nonmatching_line_noop (st : St) (line : String)
    (h : parseLine line.toList = none) : step st line = (st, []) :=
  step_of_no_match st line h

/-- Witness for the skipped-line claim at a concrete noise line. -/
theorem nonmatching_line_noop_witness :
    step initState "this is arbitrary log noise" = (initState, []) :=
  nonmatching_line_noop initState "this is arbitrary log noise" rfl

/-- Claim C8: the token `CW_DEBUG_EVENT_TONE_FOO` passes the prefix
classification, is stored in the table without any diagnostic, and the
emission pass then dies looking up its plot code in `event_values`. -/
theorem unknown_variant_accepted_then_emission_dies :
    (ingest ["libcwevent:\t5\tCW_DEBUG_EVENT_TONE_FOO"]).2 = [] ∧
    dictGet (ingest ["libcwevent:\t5\tCW_DEBUG_EVENT_TONE_FOO"]).1.input_events 5 =
      some ("CW_DEBUG_EVENT_TONE_FOO".toList) ∧
    event_values ("CW_DEBUG_EVENT_TONE_FOO".toList) = none ∧
    run ["libcwevent:\t5\tCW_DEBUG_EVENT_TONE_FOO"] = none :=
  ⟨rfl, rfl, rfl, rfl⟩

/-- Claim C9: an event line of a recognized category with timestamp 0 writes
the synthesized predecessor at `-1`, so `-1` is a key of the table and the
first timestamp the sorted output loop visits is `-1`. -/
theorem event_at_zero_row_minus_one (pre post : List String) (l0 : String) (tok : List Char)
    (hp : parseLine l0.toList = some (0, tok))
    (hc : isPre tonePat tok = true ∨ isPre tqPat tok = true) :
    memKey (ingest (pre ++ l0 :: post)).1.input_events (-1) = true ∧
    (sortedKeys (ingest (pre ++ l0 :: post)).1.input_events).head? = some (-1) := by
  have hmem : memKey (ingest (pre ++ l0 :: post)).1.input_events (-1) = true := by
    have e1 : pre ++ l0 :: post = (pre ++ [l0]) ++ post := by simp
    unfold ingest
    rw [e1, ingestAux_append, ingestAux_append]
    apply ingestAux_memKey
    rw [show (ingestAux (ingestAux initState pre).1 [l0]).1 =
      (step (ingestAux initState pre).1 l0).1 from rfl]
    have h := step_writes_pred (ingestAux initState pre).1 l0 0 tok hp hc
    have e2 : ((0 : Nat) : Int) - 1 = (-1 : Int) := by norm_num
    rwa [e2] at h
  refine ⟨hmem, ?_⟩
  exact sortedKeys_head _ hmem
    (ingestAux_keys_lb initState (pre ++ l0 :: post) (by simp [initState]))

/-- Witness for the timestamp-0 claim at a single Tone event at time 0. -/
theorem event_at_zero_row_minus_one_witness :
    memKey (ingest ([] ++ "libcwevent:\t0\tCW_DEBUG_EVENT_TONE_HIGH" :: [])).1.input_events
      (-1) = true ∧
    (sortedKeys (ingest
      ([] ++ "libcwevent:\t0\tCW_DEBUG_EVENT_TONE_HIGH" :: [])).1.input_events).head? =
      some (-1) :=
  event_at_zero_row_minus_one [] [] "libcwevent:\t0\tCW_DEBUG_EVENT_TONE_HIGH"
    ("CW_DEBUG_EVENT_TONE_HIGH".toList) rfl (Or.inl rfl)

/-- Claim C10: when no input line matches the event pattern — in particular
on empty input — the whole standard output is the single header line `Time`. -/
theorem no_events_header_only (input : List String)
    (h : ∀ l ∈ input, parseLine l.toList = none) : run input = some ["Time"] := by
  unfold run ingest
  rw [ingestAux_of_no_match initState input h]
  exact rfl

/-- Witness for the header-only claim at a one-line input of log noise. -/
theorem no_events_header_only_witness :
    run ["some unrelated log line"] = some ["Time"] :=
  no_events_header_only ["some unrelated log line"] (by decide)
